import Mathlib

/-!
Shallow embedding of the electron-ipc contract layer: the descriptor factories of
src/actions.ts and the four wiring surfaces of src/createIpcApi.ts, over an explicit
world state modelling the transport registries (ipcMain handle/on, ipcRenderer on,
the send logs) and the context-bridge global scope of the renderer process.
-/

/-- Runtime values passed through the IPC layer (payloads, event metadata, errors). -/
inductive Value where
  | undef
  | null
  | bool (b : Bool)
  | int (n : Int)
  | str (s : String)
  | pair (a b : Value)
  deriving DecidableEq, Repr

/-- Runtime shape of an action descriptor. One-way descriptors are
objects of shape type/arg, two-way descriptors additionally carry a result field;
the absent result field of a one-way descriptor is modelled as none. -/
structure IpcAction where
  type : String
  arg : Value
  result : Option Value
  deriving DecidableEq, Repr

/-- twoWayAction() from actions.ts: returns the literal with type "twoWay" and
null placeholders for arg and result. No runtime parameters. -/
def twoWayAction : IpcAction :=
  { type := "twoWay", arg := Value.null, result := some Value.null }

/-- oneWayAction() from actions.ts: returns the literal with type "oneWay" and
a null placeholder for arg (no result field). No runtime parameters. -/
def oneWayAction : IpcAction :=
  { type := "oneWay", arg := Value.null, result := none }

/-- An API table: a string-keyed record of descriptors, in Object.keys order. -/
abbrev Table := List (String × IpcAction)

/-- JavaScript property read on a string-keyed record. -/
def alookup (l : List (String × α)) (k : String) : Option α :=
  match l with
  | [] => none
  | (k', v) :: rest => if k' = k then some v else alookup rest k

/-- JavaScript property assignment on a string-keyed record: overwrite the
existing key in place, otherwise append the new key at the end. -/
def recordSet (r : List (String × α)) (k : String) (v : α) : List (String × α) :=
  if k ∈ r.map Prod.fst then
    r.map (fun p => if p.1 = k then (p.1, v) else p)
  else r ++ [(k, v)]

/-- The callables preload installs on the bridge object, defunctionalized: each
closure in the source captures only the action name (its transport channel) and
the ipcRenderer object, so the tag plus channel determines it exactly. -/
inductive BridgeFn where
  | invokeFn (channel : String)
  | sendFn (channel : String)
  | onFn (channel : String)
  deriving DecidableEq, Repr

/-- The transport channel a bridge callable uses when invoked. -/
def BridgeFn.channel : BridgeFn → String
  | .invokeFn k => k
  | .sendFn k => k
  | .onFn k => k

/-- One step of preload's first loop over Object.keys(toMain): install the
m-prefixed callable, invoke-backed for a two-way descriptor, send-backed otherwise. -/
def exposeMainStep (ex : List (String × BridgeFn)) (p : String × IpcAction) :
    List (String × BridgeFn) :=
  if p.2.type = "twoWay" then
    recordSet ex ("m_" ++ p.1) (BridgeFn.invokeFn p.1)
  else
    recordSet ex ("m_" ++ p.1) (BridgeFn.sendFn p.1)

/-- One step of preload's second loop over Object.keys(toRenderer): install the
r-prefixed subscription callable. -/
def exposeRenderStep (ex : List (String × BridgeFn)) (p : String × IpcAction) :
    List (String × BridgeFn) :=
  recordSet ex ("r_" ++ p.1) (BridgeFn.onFn p.1)

/-- The expose record preload builds before handing it to
contextBridge.exposeInMainWorld: both loops of preload, in source order. -/
def buildExpose (tm tr : Table) : List (String × BridgeFn) :=
  tr.foldl exposeRenderStep (tm.foldl exposeMainStep [])

/-- A listener sitting in the ipcMain handle or on registry. It receives
(event metadata, payload) from the transport and either returns a value or throws. -/
abbrev MainListener := Value → Value → Except Value Value

/-- An application handler from the fromRenderer handler map. It receives
(payload, event metadata) and either returns a value or throws. -/
abbrev MainHandler := Value → Value → Except Value Value

/-- A listener sitting in the ipcRenderer on registry: receives
(event metadata, payload) and returns a value (discarded by the transport). -/
abbrev RendererListener := Value → Value → Value

/-- An application callback from the fromMain handler map: receives the payload. -/
abbrev RendererCb := Value → Value

/-- Process-wide state the surfaces interact with: the two declared API tables
(shared by reference across all surfaces), the bridge global scope of the
renderer, the ipcMain handle and on registries, the ipcRenderer on registry,
and logs of the fire-and-forget transport calls made in each direction. -/
structure World where
  toMainTab : Table
  toRenderTab : Table
  globalScope : List (String × List (String × BridgeFn))
  mainHandle : List (String × MainListener)
  mainOn : List (String × MainListener)
  rendererOn : List (String × RendererListener)
  rendererSent : List (String × Value)
  windowSent : List (Nat × String × Value)

/-- preload from createIpcApi.ts: builds the expose record from the two tables
and installs it in the renderer global scope under the ipc key. -/
def preload (ipcKey : String) (w : World) : World :=
  { w with globalScope :=
      recordSet w.globalScope ipcKey (buildExpose w.toMainTab w.toRenderTab) }

/-- The listener fromRenderer registers for a key: a wrapper receiving
(event metadata, payload) that calls the application handler with
(payload, event metadata) inside a block body with no return statement, so a
normal handler result is dropped and the wrapper returns undefined, while a
thrown error propagates out of the wrapper. -/
def mainWrapper (h : MainHandler) : MainListener :=
  fun e arg => (h arg e).map (fun _ => Value.undef)

/-- One step of fromRenderer's loop over Object.keys(toMain): register the
wrapper with ipcMain.handle for a two-way descriptor, with ipcMain.on otherwise,
on the unprefixed action name. -/
def fromRendererStep (h : String → MainHandler) (w : World) (p : String × IpcAction) :
    World :=
  if p.2.type = "twoWay" then
    { w with mainHandle := w.mainHandle ++ [(p.1, mainWrapper (h p.1))] }
  else
    { w with mainOn := w.mainOn ++ [(p.1, mainWrapper (h p.1))] }

/-- main.fromRenderer from createIpcApi.ts. -/
def fromRenderer (h : String → MainHandler) (w : World) : World :=
  w.toMainTab.foldl (fromRendererStep h) w

/-- A sender callable produced by main.toRenderer, defunctionalized: each closure
captures the target window and the action name it sends on. -/
abbrev SenderFn := Nat × String

/-- main.toRenderer from createIpcApi.ts: builds a record with one sender
callable per main-to-renderer entry, keyed by the unprefixed action name,
each targeting the given window. Reads no transport state and changes nothing. -/
def toRenderer (windowId : Nat) (w : World) : List (String × SenderFn) × World :=
  (w.toRenderTab.foldl (fun api p => recordSet api p.1 (windowId, p.1)) [], w)

/-- Invoking a sender callable: window.webContents.send(key, arg), recorded as
one window-send transport call; nothing else changes. -/
def callSender (s : SenderFn) (arg : Value) (w : World) : World :=
  { w with windowSent := w.windowSent ++ [(s.1, s.2, arg)] }

/-- A caller callable produced by renderer.toMain, defunctionalized: each closure
captures the ipc key and the prefixed method name it looks up at call time. -/
abbrev CallerFn := String × String

/-- renderer.toMain from createIpcApi.ts: builds a record with one caller
callable per renderer-to-main entry. Performs no global-scope lookup itself;
the lookup happens inside each callable when invoked. -/
def toMain (ipcKey : String) (w : World) : List (String × CallerFn) × World :=
  (w.toMainTab.foldl (fun api p => recordSet api p.1 (ipcKey, "m_" ++ p.1)) [], w)

/-- The settled outcome of an ipcRenderer.invoke call: the registered handle
listener is applied to (event metadata, payload); none when no handler is
registered on the channel (the pending result then never settles). -/
def invokeResult (w : World) (channel : String) (e arg : Value) :
    Option (Except Value Value) :=
  (alookup w.mainHandle channel).map (fun l => l e arg)

/-- What a bridge callable returns to its caller: a pending result (for
invoke-backed callables) or undefined (for send- and on-backed callables). -/
inductive CallRet where
  | promiseOf (r : Option (Except Value Value))
  | retUndef
  deriving Repr

/-- An argument passed to a bridge callable: a plain value or a callback. -/
inductive JsArg where
  | val (x : Value)
  | cb (f : RendererCb)

/-- The value a JsArg denotes when sent over the transport. A callback does not
survive the transport's structured clone; modelled as undefined. The surfaces
never send a callback (preload puts only invoke- and send-backed callables under
m-prefixed names), so that branch is unreachable through them. -/
def JsArg.toValue : JsArg → Value
  | .val x => x
  | .cb _ => Value.undef

/-- Calling a JsArg as a function. Calling a plain value is a type error in
JavaScript; modelled as undefined. The surfaces never register a plain value as
a callback (fromMain always passes a handler), so that branch is unreachable
through them. -/
def JsArg.call : JsArg → Value → Value
  | .cb f, p => f p
  | .val _, _ => Value.undef

/-- Invoking one bridge callable with an argument, given the event metadata the
transport would attach: an invoke-backed callable returns the pending result of
ipcRenderer.invoke on its channel; a send-backed callable performs
ipcRenderer.send and returns undefined; an on-backed callable registers a
listener that drops the event metadata and calls the callback with the payload. -/
def applyBridgeFn (bf : BridgeFn) (a : JsArg) (e : Value) (w : World) :
    CallRet × World :=
  match bf with
  | .invokeFn k => (CallRet.promiseOf (invokeResult w k e a.toValue), w)
  | .sendFn k =>
      (CallRet.retUndef, { w with rendererSent := w.rendererSent ++ [(k, a.toValue)] })
  | .onFn k =>
      (CallRet.retUndef,
        { w with rendererOn := w.rendererOn ++ [(k, fun _e p => a.call p)] })

/-- Runtime failures of a bridge access in the renderer: the namespace object is
absent from the global scope (reading a property of undefined), or the method is
absent from the namespace object (calling undefined). -/
inductive RTErr where
  | bridgeMissing
  | methodMissing
  deriving DecidableEq, Repr

/-- Evaluating window[ipcKey][name](a) in the renderer: look up the namespace
object, then the method, then invoke it. -/
def callExposed (w : World) (ipcKey name : String) (a : JsArg) (e : Value) :
    Except RTErr (CallRet × World) :=
  match alookup w.globalScope ipcKey with
  | none => Except.error RTErr.bridgeMissing
  | some ex =>
      match alookup ex name with
      | none => Except.error RTErr.methodMissing
      | some bf => Except.ok (applyBridgeFn bf a e w)

/-- Invoking a caller callable from the record renderer.toMain returns:
the closure body window[ipcKey][m-prefixed name](arg). -/
def callCaller (c : CallerFn) (arg e : Value) (w : World) :
    Except RTErr (CallRet × World) :=
  callExposed w c.1 c.2 (JsArg.val arg) e

/-- The return part of a bridge call outcome, ignoring the state part. -/
def callRetOf (r : Except RTErr (CallRet × World)) : Option CallRet :=
  match r with
  | Except.ok (ret, _) => some ret
  | Except.error _ => none

/-- One step of fromMain's loop over Object.keys(toRenderer): evaluate
window[ipcKey][r-prefixed key](handlers[key]); a throw aborts the remaining
iterations but keeps the state already reached. -/
def fromMainStep (ipcKey : String) (h : String → RendererCb)
    (acc : World × Option RTErr) (p : String × IpcAction) : World × Option RTErr :=
  match acc.2 with
  | some _ => acc
  | none =>
      match callExposed acc.1 ipcKey ("r_" ++ p.1) (JsArg.cb (h p.1)) Value.undef with
      | Except.error err => (acc.1, some err)
      | Except.ok (_, w') => (w', none)

/-- renderer.fromMain from createIpcApi.ts: for each main-to-renderer entry,
call the bridge subscription callable with the application handler. -/
def fromMain (ipcKey : String) (h : String → RendererCb) (w : World) :
    World × Option RTErr :=
  w.toRenderTab.foldl (fromMainStep ipcKey h) (w, none)

/-- The props record createIpcApi receives; the two tables are optional. -/
structure CreateIpcApiProps where
  ipcKey : String
  toMain : Option Table
  toRenderer : Option Table

/-- What the closures returned by createIpcApi close over: the ipc key and the
two tables, defaulted to empty records when absent from the props. -/
structure IpcContract where
  ipcKey : String
  toMainTab : Table
  toRenderTab : Table
  deriving DecidableEq, Repr

/-- createIpcApi from createIpcApi.ts: destructures the props, defaulting the
tables, and returns the object of closures; its body performs no transport call
and touches no process state. -/
def createIpcApi (props : CreateIpcApiProps) (w : World) : IpcContract × World :=
  ({ ipcKey := props.ipcKey,
     toMainTab := props.toMain.getD [],
     toRenderTab := props.toRenderer.getD [] }, w)

/-- One call to a wiring surface, with the arguments the application supplies. -/
inductive SurfaceOp where
  | preloadOp (ipcKey : String)
  | fromRendererOp (h : String → MainHandler)
  | fromMainOp (ipcKey : String) (h : String → RendererCb)
  | toMainOp (ipcKey : String)
  | toRendererOp (windowId : Nat)

/-- The state effect of one surface call. -/
def stepOp : SurfaceOp → World → World
  | .preloadOp k, w => preload k w
  | .fromRendererOp h, w => fromRenderer h w
  | .fromMainOp k h, w => (fromMain k h w).1
  | .toMainOp k, w => (toMain k w).2
  | .toRendererOp i, w => (toRenderer i w).2

/-- The state effect of a sequence of surface calls. -/
def runOps (ops : List SurfaceOp) (w : World) : World :=
  ops.foldl (fun w' op => stepOp op w') w

/-- The key/direction skeleton of a table: what the surfaces read of it
(Object.keys order plus each descriptor's type tag). -/
def tabTypes (t : Table) : List (String × String) :=
  t.map (fun p => (p.1, p.2.type))

/-- The non-table components of the world: everything the surfaces can affect. -/
def World.obs (w : World) :=
  (w.globalScope, w.mainHandle, w.mainOn, w.rendererOn, w.rendererSent, w.windowSent)

/-- The bridge callable preload installs for a renderer-to-main entry. -/
def mEntry (p : String × IpcAction) : BridgeFn :=
  if p.2.type = "twoWay" then BridgeFn.invokeFn p.1 else BridgeFn.sendFn p.1

/-- What one fromMain iteration can do to the world: leave it alone, log one
renderer send, or append one renderer listener; everything else is untouched. -/
def RendererGrowth (w w' : World) : Prop :=
  w'.toMainTab = w.toMainTab ∧ w'.toRenderTab = w.toRenderTab
  ∧ w'.globalScope = w.globalScope ∧ w'.mainHandle = w.mainHandle
  ∧ w'.mainOn = w.mainOn ∧ (∃ s, w'.rendererOn = w.rendererOn ++ s)
  ∧ w'.windowSent = w.windowSent

/-- The listener registries at a later state extend those of an earlier state. -/
def ListenerGrowth (w w' : World) : Prop :=
  (∃ t, w'.mainHandle = w.mainHandle ++ t)
  ∧ (∃ t, w'.mainOn = w.mainOn ++ t)
  ∧ (∃ t, w'.rendererOn = w.rendererOn ++ t)

/-- A world with empty transport registries and one declared two-way
renderer-to-main action, as in the spec's end-to-end scenario. -/
def exW0 : World :=
  { toMainTab := [("fetchData", twoWayAction)], toRenderTab := [],
    globalScope := [], mainHandle := [], mainOn := [], rendererOn := [],
    rendererSent := [], windowSent := [] }

/-- A handler map whose fetchData handler returns the value 42. -/
def exHandlers : String → MainHandler :=
  fun _k => fun _arg _e => Except.ok (Value.int 42)

/-- The world after the preload and main-side registration steps have run. -/
def exW1 : World := fromRenderer exHandlers (preload "api" exW0)

/-- A world with empty transport registries, an empty renderer-to-main table and
one declared one-way main-to-renderer action. -/
def exV0 : World :=
  { toMainTab := [], toRenderTab := [("notify", oneWayAction)],
    globalScope := [], mainHandle := [], mainOn := [], rendererOn := [],
    rendererSent := [], windowSent := [] }

/-- The previous world after preload has installed the bridge object. -/
def exV1 : World := preload "api" exV0

/-- A callback map passing each payload through unchanged. -/
def exCbs : String → RendererCb := fun _k => fun v => v

/-- A world identical to exW0 except that the declared descriptor carries a
non-null arg placeholder (same key and same type tag). -/
def exU0 : World :=
  { toMainTab := [("fetchData",
      { type := "twoWay", arg := Value.int 7, result := some Value.null })],
    toRenderTab := [], globalScope := [], mainHandle := [], mainOn := [],
    rendererOn := [], rendererSent := [], windowSent := [] }

/-! Helper lemmas about records, string keys, and the build loops. -/

lemma alookup_eq_none {α} (l : List (String × α)) (k : String)
    (h : k ∉ l.map Prod.fst) : alookup l k = none := by
  induction l with
  | nil => rfl
  | cons p rest ih =>
      simp only [List.map_cons, List.mem_cons] at h
      push_neg at h
      simp [alookup, Ne.symm h.1, ih h.2]

lemma alookup_append_left {α} (a b : List (String × α)) (k : String) (v : α)
    (h : alookup a k = some v) : alookup (a ++ b) k = some v := by
  induction a with
  | nil => simp [alookup] at h
  | cons p rest ih =>
      by_cases hk : p.1 = k
      · simpa [alookup, hk] using h
      · simp [alookup, hk] at h ⊢
        exact ih h

lemma alookup_append_right {α} (a b : List (String × α)) (k : String)
    (h : k ∉ a.map Prod.fst) : alookup (a ++ b) k = alookup b k := by
  induction a with
  | nil => rfl
  | cons p rest ih =>
      simp only [List.map_cons, List.mem_cons] at h
      push_neg at h
      simp [alookup, Ne.symm h.1, ih h.2]

lemma recordSet_fresh {α} (r : List (String × α)) (k : String) (v : α)
    (h : k ∉ r.map Prod.fst) : recordSet r k v = r ++ [(k, v)] := by
  simp [recordSet, h]

lemma strAppendInj (a b c : String) (h : a ++ b = a ++ c) : b = c := by
  cases a with | mk ad =>
  cases b with | mk bd =>
  cases c with | mk cd =>
  have h2 : ad ++ bd = ad ++ cd := congrArg String.data h
  simp at h2
  simp [h2]

lemma mNeR (k k' : String) : "m_" ++ k ≠ "r_" ++ k' := by
  intro h
  cases k with | mk kd =>
  cases k' with | mk kd' =>
  have h2 : 'm' :: '_' :: kd = 'r' :: '_' :: kd' := congrArg String.data h
  simp at h2

/-- A fold of fresh record assignments is an append of the mapped entries. -/
lemma foldRecordSet_eq {α} (kf : String × IpcAction → String)
    (vf : String × IpcAction → α) :
    ∀ (t : Table) (acc : List (String × α)),
      (∀ p ∈ t, kf p ∉ acc.map Prod.fst) → (t.map kf).Nodup →
      t.foldl (fun ex p => recordSet ex (kf p) (vf p)) acc
        = acc ++ t.map (fun p => (kf p, vf p)) := by
  intro t
  induction t with
  | nil => intro acc _ _; simp
  | cons p rest ih =>
      intro acc hfresh hnd
      simp only [List.map_cons, List.nodup_cons] at hnd
      have hp : kf p ∉ acc.map Prod.fst := hfresh p (List.mem_cons_self p rest)
      have step : recordSet acc (kf p) (vf p) = acc ++ [(kf p, vf p)] :=
        recordSet_fresh acc (kf p) (vf p) hp
      simp only [List.foldl_cons, step]
      rw [ih (acc ++ [(kf p, vf p)])]
      · simp
      · intro q hq
        simp only [List.map_append, List.mem_append]
        push_neg
        refine ⟨hfresh q (List.mem_cons_of_mem p hq), ?_⟩
        simp only [List.map_cons, List.map_nil, List.mem_singleton]
        intro hcontra
        exact hnd.1 (hcontra ▸ List.mem_map_of_mem kf hq)
      · exact hnd.2

lemma rNeM (k k' : String) : "r_" ++ k ≠ "m_" ++ k' :=
  fun h => mNeR k' k h.symm

lemma mEntry_channel (p : String × IpcAction) : (mEntry p).channel = p.1 := by
  by_cases hx : p.2.type = "twoWay" <;> simp [mEntry, hx, BridgeFn.channel]

/-- The expose record, in closed form: one m-prefixed entry per renderer-to-main
key in table order, then one r-prefixed entry per main-to-renderer key. -/
lemma buildExpose_eq (tm tr : Table)
    (hm : (tm.map Prod.fst).Nodup) (hr : (tr.map Prod.fst).Nodup) :
    buildExpose tm tr
      = tm.map (fun p => ("m_" ++ p.1, mEntry p))
        ++ tr.map (fun p => ("r_" ++ p.1, BridgeFn.onFn p.1)) := by
  have hstep : exposeMainStep = fun ex p => recordSet ex ("m_" ++ p.1) (mEntry p) := by
    funext ex p
    by_cases hx : p.2.type = "twoWay" <;> simp [exposeMainStep, mEntry, hx]
  have hstep2 : exposeRenderStep
      = fun ex p => recordSet ex ("r_" ++ p.1) (BridgeFn.onFn p.1) := by
    funext ex p; rfl
  have hmnd : (tm.map (fun p => "m_" ++ p.1)).Nodup := by
    have hcomp : tm.map (fun p => "m_" ++ p.1)
        = (tm.map Prod.fst).map (fun k => "m_" ++ k) := by
      simp [List.map_map]
    rw [hcomp]
    exact hm.map (fun a b hab => strAppendInj _ a b hab)
  have hrnd : (tr.map (fun p => "r_" ++ p.1)).Nodup := by
    have hcomp : tr.map (fun p => "r_" ++ p.1)
        = (tr.map Prod.fst).map (fun k => "r_" ++ k) := by
      simp [List.map_map]
    rw [hcomp]
    exact hr.map (fun a b hab => strAppendInj _ a b hab)
  unfold buildExpose
  rw [hstep, hstep2]
  rw [foldRecordSet_eq (fun p => "m_" ++ p.1) mEntry tm [] (by simp) hmnd]
  rw [foldRecordSet_eq (fun p => "r_" ++ p.1) (fun p => BridgeFn.onFn p.1) tr _ ?_ hrnd]
  · simp
  · intro p _
    simp only [List.nil_append, List.map_map, List.mem_map]
    rintro ⟨q, _, hq⟩
    exact rNeM p.1 q.1 (by simpa using hq.symm)

/-- Property lookup in a table mapped to prefixed entries finds the entry of the
given key, when keys are distinct. -/
lemma alookup_preMap {β} (pre : String) (vf : String × IpcAction → β) :
    ∀ (t : Table) (k : String) (d : IpcAction), (k, d) ∈ t → (t.map Prod.fst).Nodup →
      alookup (t.map (fun p => (pre ++ p.1, vf p))) (pre ++ k) = some (vf (k, d)) := by
  intro t
  induction t with
  | nil => intro k d hmem _; simp at hmem
  | cons p rest ih =>
      intro k d hmem hnd
      simp only [List.map_cons, List.nodup_cons] at hnd
      rcases List.mem_cons.mp hmem with heq | hmem'
      · simp [alookup, ← heq]
      · have hne : p.1 ≠ k := by
          intro hc
          exact hnd.1 (hc ▸ List.mem_map_of_mem Prod.fst hmem')
        have hne2 : pre ++ p.1 ≠ pre ++ k := fun hc => hne (strAppendInj pre _ _ hc)
        simp [alookup, hne2, ih k d hmem' hnd.2]

/-- Looking up the m-prefixed name of a renderer-to-main entry in the expose
record yields the invoke-backed callable for a two-way descriptor and the
send-backed callable otherwise, on the unprefixed channel. -/
lemma alookup_buildExpose_m (tm tr : Table)
    (hm : (tm.map Prod.fst).Nodup) (hr : (tr.map Prod.fst).Nodup)
    (k : String) (d : IpcAction) (hmem : (k, d) ∈ tm) :
    alookup (buildExpose tm tr) ("m_" ++ k) = some (mEntry (k, d)) := by
  rw [buildExpose_eq tm tr hm hr]
  exact alookup_append_left _ _ _ _ (alookup_preMap "m_" mEntry tm k d hmem hm)

/-- Looking up the r-prefixed name of a main-to-renderer entry in the expose
record yields the subscription callable on the unprefixed channel. -/
lemma alookup_buildExpose_r (tm tr : Table)
    (hm : (tm.map Prod.fst).Nodup) (hr : (tr.map Prod.fst).Nodup)
    (k : String) (d : IpcAction) (hmem : (k, d) ∈ tr) :
    alookup (buildExpose tm tr) ("r_" ++ k) = some (BridgeFn.onFn k) := by
  rw [buildExpose_eq tm tr hm hr]
  rw [alookup_append_right]
  · exact alookup_preMap "r_" (fun p => BridgeFn.onFn p.1) tr k d hmem hr
  · simp only [List.map_map, List.mem_map]
    rintro ⟨q, _, hq⟩
    exact mNeR q.1 k (by simpa using hq)

/-- fromRenderer's registrations with ipcMain.handle, in closed form: one wrapper
per two-way entry, appended after the existing registry in table order. -/
lemma fromRendererLoop_handle (h : String → MainHandler) :
    ∀ (t : Table) (w : World),
      (t.foldl (fromRendererStep h) w).mainHandle
        = w.mainHandle
          ++ (t.filter (fun p => p.2.type == "twoWay")).map
              (fun p => (p.1, mainWrapper (h p.1))) := by
  intro t
  induction t with
  | nil => intro w; simp
  | cons p rest ih =>
      intro w
      rw [List.foldl_cons]
      by_cases hx : p.2.type = "twoWay"
      · simp [fromRendererStep, hx, ih, List.filter_cons]
      · simp [fromRendererStep, hx, ih, List.filter_cons]

/-- fromRenderer's registrations with ipcMain.on, in closed form: one wrapper
per one-way entry, appended after the existing registry in table order. -/
lemma fromRendererLoop_on (h : String → MainHandler) :
    ∀ (t : Table) (w : World),
      (t.foldl (fromRendererStep h) w).mainOn
        = w.mainOn
          ++ (t.filter (fun p => !(p.2.type == "twoWay"))).map
              (fun p => (p.1, mainWrapper (h p.1))) := by
  intro t
  induction t with
  | nil => intro w; simp
  | cons p rest ih =>
      intro w
      rw [List.foldl_cons]
      by_cases hx : p.2.type = "twoWay"
      · simp [fromRendererStep, hx, ih, List.filter_cons]
      · simp [fromRendererStep, hx, ih, List.filter_cons]

/-- fromRenderer touches only the two ipcMain registries. -/
lemma fromRendererLoop_frame (h : String → MainHandler) :
    ∀ (t : Table) (w : World),
      (t.foldl (fromRendererStep h) w).toMainTab = w.toMainTab
      ∧ (t.foldl (fromRendererStep h) w).toRenderTab = w.toRenderTab
      ∧ (t.foldl (fromRendererStep h) w).globalScope = w.globalScope
      ∧ (t.foldl (fromRendererStep h) w).rendererOn = w.rendererOn
      ∧ (t.foldl (fromRendererStep h) w).rendererSent = w.rendererSent
      ∧ (t.foldl (fromRendererStep h) w).windowSent = w.windowSent := by
  intro t
  induction t with
  | nil => intro w; exact ⟨rfl, rfl, rfl, rfl, rfl, rfl⟩
  | cons p rest ih =>
      intro w
      rw [List.foldl_cons]
      by_cases hx : p.2.type = "twoWay"
      · simpa [fromRendererStep, hx] using ih _
      · simpa [fromRendererStep, hx] using ih _

lemma rendererGrowth_refl (w : World) : RendererGrowth w w :=
  ⟨rfl, rfl, rfl, rfl, rfl, ⟨[], by simp⟩, rfl⟩

lemma rendererGrowth_trans {w1 w2 w3 : World}
    (h12 : RendererGrowth w1 w2) (h23 : RendererGrowth w2 w3) :
    RendererGrowth w1 w3 := by
  obtain ⟨a1, a2, a3, a4, a5, ⟨s1, hs1⟩, a7⟩ := h12
  obtain ⟨b1, b2, b3, b4, b5, ⟨s2, hs2⟩, b7⟩ := h23
  refine ⟨b1.trans a1, b2.trans a2, b3.trans a3, b4.trans a4, b5.trans a5,
    ⟨s1 ++ s2, ?_⟩, b7.trans a7⟩
  rw [hs2, hs1, List.append_assoc]

lemma fromMainStep_growth (ipcKey : String) (h : String → RendererCb)
    (acc : World × Option RTErr) (p : String × IpcAction) :
    RendererGrowth acc.1 (fromMainStep ipcKey h acc p).1 := by
  cases hst : acc.2 with
  | some err => simp [fromMainStep, hst]; exact rendererGrowth_refl _
  | none =>
      cases hgs : alookup acc.1.globalScope ipcKey with
      | none =>
          simp [fromMainStep, hst, callExposed, hgs]
          exact rendererGrowth_refl _
      | some ex =>
          cases hex : alookup ex ("r_" ++ p.1) with
          | none =>
              simp [fromMainStep, hst, callExposed, hgs, hex]
              exact rendererGrowth_refl _
          | some bf =>
              cases bf with
              | invokeFn k =>
                  simp [fromMainStep, hst, callExposed, hgs, hex, applyBridgeFn]
                  exact rendererGrowth_refl _
              | sendFn k =>
                  simp [fromMainStep, hst, callExposed, hgs, hex, applyBridgeFn]
                  exact ⟨rfl, rfl, rfl, rfl, rfl, ⟨[], by simp⟩, rfl⟩
              | onFn k =>
                  simp [fromMainStep, hst, callExposed, hgs, hex, applyBridgeFn]
                  exact ⟨rfl, rfl, rfl, rfl, rfl,
                    ⟨[(k, fun _e q => (JsArg.cb (h p.1)).call q)], rfl⟩, rfl⟩

lemma fromMainLoop_growth (ipcKey : String) (h : String → RendererCb) :
    ∀ (t : Table) (acc : World × Option RTErr),
      RendererGrowth acc.1 (t.foldl (fromMainStep ipcKey h) acc).1 := by
  intro t
  induction t with
  | nil => intro acc; exact rendererGrowth_refl _
  | cons p rest ih =>
      intro acc
      rw [List.foldl_cons]
      exact rendererGrowth_trans (fromMainStep_growth ipcKey h acc p) (ih _)

lemma listenerGrowth_refl (w : World) : ListenerGrowth w w :=
  ⟨⟨[], by simp⟩, ⟨[], by simp⟩, ⟨[], by simp⟩⟩

lemma listenerGrowth_trans {w1 w2 w3 : World}
    (h12 : ListenerGrowth w1 w2) (h23 : ListenerGrowth w2 w3) :
    ListenerGrowth w1 w3 := by
  obtain ⟨⟨a1, ha1⟩, ⟨a2, ha2⟩, ⟨a3, ha3⟩⟩ := h12
  obtain ⟨⟨b1, hb1⟩, ⟨b2, hb2⟩, ⟨b3, hb3⟩⟩ := h23
  exact ⟨⟨a1 ++ b1, by rw [hb1, ha1, List.append_assoc]⟩,
    ⟨a2 ++ b2, by rw [hb2, ha2, List.append_assoc]⟩,
    ⟨a3 ++ b3, by rw [hb3, ha3, List.append_assoc]⟩⟩

/-- No single surface call removes or replaces a registered listener. -/
lemma stepOp_growth (op : SurfaceOp) (w : World) : ListenerGrowth w (stepOp op w) := by
  cases op with
  | preloadOp k => exact listenerGrowth_refl _
  | fromRendererOp h =>
      refine ⟨⟨_, fromRendererLoop_handle h w.toMainTab w⟩,
        ⟨_, fromRendererLoop_on h w.toMainTab w⟩, ⟨[], ?_⟩⟩
      rw [List.append_nil]
      exact ((fromRendererLoop_frame h w.toMainTab w).2.2.2.1).symm ▸ rfl
  | fromMainOp k h =>
      obtain ⟨_, _, _, h4, h5, ⟨s, hs⟩, _⟩ := fromMainLoop_growth k h w.toRenderTab (w, none)
      exact ⟨⟨[], by simp [stepOp, fromMain, h4]⟩, ⟨[], by simp [stepOp, fromMain, h5]⟩,
        ⟨s, by simpa [stepOp, fromMain] using hs⟩⟩
  | toMainOp k => exact listenerGrowth_refl _
  | toRendererOp i => exact listenerGrowth_refl _

/-- No sequence of surface calls removes or replaces a registered listener. -/
lemma runOps_growth (ops : List SurfaceOp) :
    ∀ w : World, ListenerGrowth w (runOps ops w) := by
  induction ops with
  | nil => intro w; exact listenerGrowth_refl _
  | cons op rest ih =>
      intro w
      exact listenerGrowth_trans (stepOp_growth op w) (ih (stepOp op w))

/-- No single surface call changes either API table. -/
lemma stepOp_tables (op : SurfaceOp) (w : World) :
    (stepOp op w).toMainTab = w.toMainTab
    ∧ (stepOp op w).toRenderTab = w.toRenderTab := by
  cases op with
  | preloadOp k => exact ⟨rfl, rfl⟩
  | fromRendererOp h =>
      exact ⟨(fromRendererLoop_frame h w.toMainTab w).1,
        (fromRendererLoop_frame h w.toMainTab w).2.1⟩
  | fromMainOp k h =>
      obtain ⟨h1, h2, _⟩ := fromMainLoop_growth k h w.toRenderTab (w, none)
      exact ⟨h1, h2⟩
  | toMainOp k => exact ⟨rfl, rfl⟩
  | toRendererOp i => exact ⟨rfl, rfl⟩

/-- No sequence of surface calls changes either API table. -/
lemma runOps_tables (ops : List SurfaceOp) :
    ∀ w : World, (runOps ops w).toMainTab = w.toMainTab
      ∧ (runOps ops w).toRenderTab = w.toRenderTab := by
  induction ops with
  | nil => intro w; exact ⟨rfl, rfl⟩
  | cons op rest ih =>
      intro w
      obtain ⟨i1, i2⟩ := ih (stepOp op w)
      obtain ⟨s1, s2⟩ := stepOp_tables op w
      exact ⟨i1.trans s1, i2.trans s2⟩

lemma filter_split_len {α} (p : α → Bool) (l : List α) :
    (l.filter p).length + (l.filter (fun a => !(p a))).length = l.length := by
  induction l with
  | nil => rfl
  | cons a rest ih =>
      by_cases hx : p a = true
      · simp [List.filter_cons, hx, ← ih]; omega
      · simp only [Bool.not_eq_true] at hx
        simp [List.filter_cons, hx, ← ih]; omega

/-- The caller record renderer.toMain builds, in closed form. -/
lemma toMain_api_eq (ipcKey : String) (w : World)
    (hm : (w.toMainTab.map Prod.fst).Nodup) :
    (toMain ipcKey w).1
      = w.toMainTab.map (fun p => (p.1, (ipcKey, "m_" ++ p.1))) := by
  have := foldRecordSet_eq Prod.fst (fun p => (ipcKey, "m_" ++ p.1))
    w.toMainTab [] (by simp) hm
  simpa [toMain] using this

/-- The sender record main.toRenderer builds, in closed form. -/
lemma toRenderer_api_eq (windowId : Nat) (w : World)
    (hr : (w.toRenderTab.map Prod.fst).Nodup) :
    (toRenderer windowId w).1
      = w.toRenderTab.map (fun p => (p.1, (windowId, p.1))) := by
  have := foldRecordSet_eq Prod.fst (fun p => (windowId, p.1))
    w.toRenderTab [] (by simp) hr
  simpa [toRenderer] using this

lemma obs_fields {w w' : World} (h : World.obs w = World.obs w') :
    w.globalScope = w'.globalScope ∧ w.mainHandle = w'.mainHandle
    ∧ w.mainOn = w'.mainOn ∧ w.rendererOn = w'.rendererOn
    ∧ w.rendererSent = w'.rendererSent ∧ w.windowSent = w'.windowSent :=
  ⟨congrArg (fun x => x.1) h, congrArg (fun x => x.2.1) h,
    congrArg (fun x => x.2.2.1) h, congrArg (fun x => x.2.2.2.1) h,
    congrArg (fun x => x.2.2.2.2.1) h, congrArg (fun x => x.2.2.2.2.2) h⟩

/-- A fold whose step reads only the key and the type tag of each entry gives
the same result on tables with the same key/type skeleton. -/
lemma foldl_types_congr {σ : Type} (f : σ → String × IpcAction → σ)
    (hf : ∀ s p q, p.1 = q.1 → p.2.type = q.2.type → f s p = f s q) :
    ∀ (t t' : Table) (s : σ), tabTypes t = tabTypes t' → t.foldl f s = t'.foldl f s := by
  intro t
  induction t with
  | nil =>
      intro t' s h
      cases t' with
      | nil => rfl
      | cons q r => simp [tabTypes] at h
  | cons p rest ih =>
      intro t' s h
      cases t' with
      | nil => simp [tabTypes] at h
      | cons q rest' =>
          simp only [tabTypes, List.map_cons, List.cons.injEq, Prod.mk.injEq] at h
          obtain ⟨⟨h1, h2⟩, h3⟩ := h
          rw [List.foldl_cons, List.foldl_cons, hf s p q h1 h2]
          exact ih rest' _ h3

/-- The expose record depends only on the key/type skeletons of the tables:
preload never reads the descriptors' arg/result placeholders. -/
lemma buildExpose_types_congr (tm tm' tr tr' : Table)
    (hm : tabTypes tm = tabTypes tm') (hr : tabTypes tr = tabTypes tr') :
    buildExpose tm tr = buildExpose tm' tr' := by
  unfold buildExpose
  have hstep : ∀ (s : List (String × BridgeFn)) (p q : String × IpcAction),
      p.1 = q.1 → p.2.type = q.2.type → exposeMainStep s p = exposeMainStep s q := by
    intro s p q h1 h2
    by_cases hx : p.2.type = "twoWay"
    · simp [exposeMainStep, hx, h1, h2 ▸ hx]
    · simp [exposeMainStep, hx, h1, h2 ▸ hx]
  have hstep2 : ∀ (s : List (String × BridgeFn)) (p q : String × IpcAction),
      p.1 = q.1 → p.2.type = q.2.type → exposeRenderStep s p = exposeRenderStep s q := by
    intro s p q h1 _
    simp [exposeRenderStep, h1]
  rw [foldl_types_congr exposeMainStep hstep tm tm' [] hm]
  exact foldl_types_congr exposeRenderStep hstep2 tr tr' _ hr

lemma fromRendererLoop_obs_congr (h : String → MainHandler) :
    ∀ (t t' : Table) (w w' : World), tabTypes t = tabTypes t' →
      World.obs w = World.obs w' →
      World.obs (t.foldl (fromRendererStep h) w)
        = World.obs (t'.foldl (fromRendererStep h) w') := by
  intro t
  induction t with
  | nil =>
      intro t' w w' ht hobs
      cases t' with
      | nil => exact hobs
      | cons q r => simp [tabTypes] at ht
  | cons p rest ih =>
      intro t' w w' ht hobs
      cases t' with
      | nil => simp [tabTypes] at ht
      | cons q rest' =>
          simp only [tabTypes, List.map_cons, List.cons.injEq, Prod.mk.injEq] at ht
          obtain ⟨⟨h1, h2⟩, h3⟩ := ht
          obtain ⟨e1, e2, e3, e4, e5, e6⟩ := obs_fields hobs
          rw [List.foldl_cons, List.foldl_cons]
          refine ih rest' _ _ h3 ?_
          by_cases hx : p.2.type = "twoWay"
          · simp only [fromRendererStep, hx, h2 ▸ hx, if_pos, World.obs, h1, e1, e2, e3, e4, e5, e6]
          · simp only [fromRendererStep, hx, h2 ▸ hx, if_neg, World.obs, h1, e1, e2, e3, e4, e5, e6,
              not_false_eq_true]

lemma fromMainStep_obs_congr (k : String) (h : String → RendererCb)
    (acc acc' : World × Option RTErr) (p q : String × IpcAction)
    (hobs : World.obs acc.1 = World.obs acc'.1) (hopt : acc.2 = acc'.2)
    (hkey : p.1 = q.1) :
    World.obs (fromMainStep k h acc p).1 = World.obs (fromMainStep k h acc' q).1
    ∧ (fromMainStep k h acc p).2 = (fromMainStep k h acc' q).2 := by
  obtain ⟨e1, e2, e3, e4, e5, e6⟩ := obs_fields hobs
  cases hst : acc.2 with
  | some err =>
      have hst' : acc'.2 = some err := hopt ▸ hst
      simp [fromMainStep, hst, hst', hobs]
  | none =>
      have hst' : acc'.2 = none := hopt ▸ hst
      cases hgs : alookup acc.1.globalScope k with
      | none =>
          have hgs' : alookup acc'.1.globalScope k = none := e1 ▸ hgs
          simp [fromMainStep, hst, hst', callExposed, hgs, hgs', hobs]
      | some ex =>
          have hgs' : alookup acc'.1.globalScope k = some ex := e1 ▸ hgs
          cases hex : alookup ex ("r_" ++ p.1) with
          | none =>
              have hex' : alookup ex ("r_" ++ q.1) = none := hkey ▸ hex
              simp [fromMainStep, hst, hst', callExposed, hgs, hgs', hex, hex', hobs]
          | some bf =>
              have hex' : alookup ex ("r_" ++ q.1) = some bf := hkey ▸ hex
              cases bf with
              | invokeFn kk =>
                  simp [fromMainStep, hst, hst', callExposed, hgs, hgs', hex, hex',
                    applyBridgeFn, hobs]
              | sendFn kk =>
                  simp only [fromMainStep, hst, hst', callExposed, hgs, hgs', hex, hex',
                    applyBridgeFn]
                  exact ⟨by simp only [World.obs, e1, e2, e3, e4, e5, e6, hkey], by trivial⟩
              | onFn kk =>
                  simp only [fromMainStep, hst, hst', callExposed, hgs, hgs', hex, hex',
                    applyBridgeFn]
                  exact ⟨by simp only [World.obs, e1, e2, e3, e4, e5, e6, hkey], by trivial⟩

lemma fromMainLoop_obs_congr (k : String) (h : String → RendererCb) :
    ∀ (t t' : Table) (acc acc' : World × Option RTErr), tabTypes t = tabTypes t' →
      World.obs acc.1 = World.obs acc'.1 → acc.2 = acc'.2 →
      World.obs (t.foldl (fromMainStep k h) acc).1
        = World.obs (t'.foldl (fromMainStep k h) acc').1 := by
  intro t
  induction t with
  | nil =>
      intro t' acc acc' ht hobs _
      cases t' with
      | nil => exact hobs
      | cons q r => simp [tabTypes] at ht
  | cons p rest ih =>
      intro t' acc acc' ht hobs hopt
      cases t' with
      | nil => simp [tabTypes] at ht
      | cons q rest' =>
          simp only [tabTypes, List.map_cons, List.cons.injEq, Prod.mk.injEq] at ht
          obtain ⟨⟨h1, _⟩, h3⟩ := ht
          rw [List.foldl_cons, List.foldl_cons]
          obtain ⟨c1, c2⟩ := fromMainStep_obs_congr k h acc acc' p q hobs hopt h1
          exact ih rest' _ _ h3 c1 c2

/-- One surface call observes the tables only through their key/type skeletons:
the arg/result placeholder fields of the descriptors are never read. -/
lemma stepOp_obs_congr (op : SurfaceOp) (w w' : World)
    (hm : tabTypes w.toMainTab = tabTypes w'.toMainTab)
    (hr : tabTypes w.toRenderTab = tabTypes w'.toRenderTab)
    (hobs : World.obs w = World.obs w') :
    World.obs (stepOp op w) = World.obs (stepOp op w') := by
  obtain ⟨e1, e2, e3, e4, e5, e6⟩ := obs_fields hobs
  cases op with
  | preloadOp k =>
      simp only [stepOp, preload, World.obs, e1, e2, e3, e4, e5, e6,
        buildExpose_types_congr w.toMainTab w'.toMainTab w.toRenderTab w'.toRenderTab hm hr]
  | fromRendererOp h =>
      exact fromRendererLoop_obs_congr h w.toMainTab w'.toMainTab w w' hm hobs
  | fromMainOp k h =>
      exact fromMainLoop_obs_congr k h w.toRenderTab w'.toRenderTab (w, none) (w', none)
        hr hobs rfl
  | toMainOp k => exact hobs
  | toRendererOp i => exact hobs

/-- After a property assignment the assigned key reads back the assigned value. -/
lemma alookup_recordSet {α} (r : List (String × α)) (k : String) (v : α) :
    alookup (recordSet r k v) k = some v := by
  unfold recordSet
  by_cases hk : k ∈ r.map Prod.fst
  · rw [if_pos hk]
    induction r with
    | nil => simp at hk
    | cons p rest ih =>
        by_cases hp : p.1 = k
        · simp only [List.map_cons]
          rw [if_pos hp]
          simp [alookup, hp]
        · simp only [List.map_cons]
          rw [if_neg hp]
          simp only [List.map_cons, List.mem_cons] at hk
          rcases hk with hk1 | hk2
          · exact absurd hk1.symm hp
          · simp [alookup, hp, ih hk2]
  · rw [if_neg hk, alookup_append_right _ _ _ hk]
    simp [alookup]

lemma mKeysNodup (tm : Table) (hm : (tm.map Prod.fst).Nodup) :
    (tm.map (fun p => "m_" ++ p.1)).Nodup := by
  have hcomp : tm.map (fun p => "m_" ++ p.1)
      = (tm.map Prod.fst).map (fun k => "m_" ++ k) := by
    simp [List.map_map]
  rw [hcomp]
  exact hm.map (fun a b hab => strAppendInj _ a b hab)

lemma rKeysNodup (tr : Table) (hr : (tr.map Prod.fst).Nodup) :
    (tr.map (fun p => "r_" ++ p.1)).Nodup := by
  have hcomp : tr.map (fun p => "r_" ++ p.1)
      = (tr.map Prod.fst).map (fun k => "r_" ++ k) := by
    simp [List.map_map]
  rw [hcomp]
  exact hr.map (fun a b hab => strAppendInj _ a b hab)

/-- The success path of fromMain, in closed form: when the bridge object is
installed and exposes the subscription callable of every main-to-renderer key,
the loop registers, per key in table order, a listener that drops the event
metadata and passes the payload to the application handler; nothing else changes
and no error is raised. -/
lemma fromMainLoop_ok (ipcKey : String) (h : String → RendererCb) :
    ∀ (t : Table) (w : World) (ex : List (String × BridgeFn)),
      alookup w.globalScope ipcKey = some ex →
      (∀ p ∈ t, alookup ex ("r_" ++ p.1) = some (BridgeFn.onFn p.1)) →
      t.foldl (fromMainStep ipcKey h) (w, none)
        = ({ w with rendererOn := w.rendererOn
              ++ t.map (fun p => (p.1, fun _e a => h p.1 a)) }, none) := by
  intro t
  induction t with
  | nil => intro w ex _ _; simp
  | cons p rest ih =>
      intro w ex hgs hall
      rw [List.foldl_cons]
      have hp := hall p (List.mem_cons_self p rest)
      have hstep : fromMainStep ipcKey h (w, none) p
          = ({ w with rendererOn := w.rendererOn ++ [(p.1, fun _e a => h p.1 a)] },
              none) := by
        simp [fromMainStep, callExposed, hgs, hp, applyBridgeFn, JsArg.call]
      rw [hstep]
      rw [ih { w with rendererOn := w.rendererOn ++ [(p.1, fun _e a => h p.1 a)] }
        ex hgs (fun q hq => hall q (List.mem_cons_of_mem p hq))]
      simp

/-- C1: the claim fails on the code. In the end-to-end two-way scenario the
caller record maps fetchData to the bridge caller, the handler returns 42, yet
the listener fromRenderer registered wraps the handler call in a block body
without returning it, so the renderer's pending result resolves to undefined
instead of the handler's value. -/
theorem c1_response_dropped :
    alookup (toMain "api" exW1).1 "fetchData" = some ("api", "m_fetchData")
    ∧ callRetOf (callCaller ("api", "m_fetchData") (Value.int 7) Value.null exW1)
        = some (CallRet.promiseOf (some (Except.ok Value.undef)))
    ∧ exHandlers "fetchData" (Value.int 7) Value.null = Except.ok (Value.int 42)
    ∧ Value.undef ≠ Value.int 42 :=
  ⟨rfl, rfl, rfl, by decide⟩

/-- C2: preload installs on the bridge object exactly one callable keyed
m_ + name per renderer-to-main action and exactly one keyed r_ + name per
main-to-renderer action, every installed callable uses the unprefixed action
name as its transport channel, and preload installs exactly this record in the
renderer global scope under the ipc key. -/
theorem c2_bridge_keys_and_channels (tm tr : Table)
    (hm : (tm.map Prod.fst).Nodup) (hr : (tr.map Prod.fst).Nodup) :
    (buildExpose tm tr).map Prod.fst
      = tm.map (fun p => "m_" ++ p.1) ++ tr.map (fun p => "r_" ++ p.1)
    ∧ ((buildExpose tm tr).map Prod.fst).Nodup
    ∧ (∀ q ∈ buildExpose tm tr,
        q.1 = "m_" ++ q.2.channel ∨ q.1 = "r_" ++ q.2.channel)
    ∧ ∀ (ipcKey : String) (w : World), w.toMainTab = tm → w.toRenderTab = tr →
        alookup (preload ipcKey w).globalScope ipcKey = some (buildExpose tm tr) := by
  have hkeys : (buildExpose tm tr).map Prod.fst
      = tm.map (fun p => "m_" ++ p.1) ++ tr.map (fun p => "r_" ++ p.1) := by
    rw [buildExpose_eq tm tr hm hr]
    simp only [List.map_append, List.map_map]
    rfl
  refine ⟨hkeys, ?_, ?_, ?_⟩
  · rw [hkeys]
    refine (mKeysNodup tm hm).append (rKeysNodup tr hr) ?_
    intro a ha hb
    simp only [List.mem_map] at ha hb
    obtain ⟨p, _, hp⟩ := ha
    obtain ⟨q, _, hq⟩ := hb
    exact mNeR p.1 q.1 (hp.trans hq.symm)
  · intro q hq
    rw [buildExpose_eq tm tr hm hr] at hq
    rcases List.mem_append.mp hq with hq1 | hq2
    · obtain ⟨p, _, hp⟩ := List.mem_map.mp hq1
      left
      rw [← hp]
      simp [mEntry_channel]
    · obtain ⟨p, _, hp⟩ := List.mem_map.mp hq2
      right
      rw [← hp]
      simp [BridgeFn.channel]
  · intro ipcKey w h1 h2
    simp only [preload, h1, h2]
    exact alookup_recordSet w.globalScope ipcKey (buildExpose tm tr)

/-- Witness for C2 at a concrete contract with two renderer-to-main actions and
one main-to-renderer action. -/
theorem c2_witness :
    (buildExpose [("fetchData", twoWayAction), ("logMessage", oneWayAction)]
        [("notify", oneWayAction)]).map Prod.fst
      = ["m_fetchData", "m_logMessage", "r_notify"] :=
  (c2_bridge_keys_and_channels
    [("fetchData", twoWayAction), ("logMessage", oneWayAction)]
    [("notify", oneWayAction)] (by decide) (by decide)).1

/-- C3: the bridge callable of a renderer-to-main entry dispatches on the
descriptor's tag: for a two-way descriptor it is the invoke-backed callable
whose application returns the pending result of the transport request on the
unprefixed name; otherwise it is the send-backed callable whose application
performs the fire-and-forget send and returns undefined. -/
theorem c3_caller_dispatch (tm tr : Table)
    (hm : (tm.map Prod.fst).Nodup) (hr : (tr.map Prod.fst).Nodup)
    (k : String) (d : IpcAction) (hmem : (k, d) ∈ tm) :
    (d.type = "twoWay" →
      alookup (buildExpose tm tr) ("m_" ++ k) = some (BridgeFn.invokeFn k))
    ∧ (d.type ≠ "twoWay" →
      alookup (buildExpose tm tr) ("m_" ++ k) = some (BridgeFn.sendFn k))
    ∧ (∀ (w : World) (e arg : Value),
        applyBridgeFn (BridgeFn.invokeFn k) (JsArg.val arg) e w
          = (CallRet.promiseOf (invokeResult w k e arg), w))
    ∧ (∀ (w : World) (e arg : Value),
        applyBridgeFn (BridgeFn.sendFn k) (JsArg.val arg) e w
          = (CallRet.retUndef,
             { w with rendererSent := w.rendererSent ++ [(k, arg)] })) := by
  have hb := alookup_buildExpose_m tm tr hm hr k d hmem
  refine ⟨?_, ?_, fun _ _ _ => rfl, fun _ _ _ => rfl⟩
  · intro ht
    rw [hb]
    simp [mEntry, ht]
  · intro ht
    rw [hb]
    simp [mEntry, ht]

/-- Witness for C3 at a concrete two-way entry. -/
theorem c3_witness :
    alookup (buildExpose [("fetchData", twoWayAction)] []) ("m_" ++ "fetchData")
      = some (BridgeFn.invokeFn "fetchData") :=
  (c3_caller_dispatch [("fetchData", twoWayAction)] [] (by decide) (by decide)
    "fetchData" twoWayAction (by decide)).1 rfl

/-- C4: fromRenderer registers with ipcMain.handle exactly the two-way entries
and with ipcMain.on exactly the one-way entries, on the unprefixed names, and
every registered listener calls the application handler with
(payload, event metadata), discarding its return value. -/
theorem c4_fromRenderer_registration (h : String → MainHandler) (w : World) :
    (fromRenderer h w).mainHandle
      = w.mainHandle
        ++ (w.toMainTab.filter (fun p => p.2.type == "twoWay")).map
            (fun p => (p.1, mainWrapper (h p.1)))
    ∧ (fromRenderer h w).mainOn
      = w.mainOn
        ++ (w.toMainTab.filter (fun p => !(p.2.type == "twoWay"))).map
            (fun p => (p.1, mainWrapper (h p.1)))
    ∧ ∀ (k : String) (e arg : Value),
        mainWrapper (h k) e arg = (h k arg e).map (fun _ => Value.undef) :=
  ⟨fromRendererLoop_handle h w.toMainTab w, fromRendererLoop_on h w.toMainTab w,
    fun _ _ _ => rfl⟩

/-- C5: the bridge subscription callable of every main-to-renderer entry is the
on-backed registrar on the unprefixed name; calling it with a callback registers
a listener that drops the transport's event-metadata argument and passes only
the payload; consequently fromMain, run after preload, registers for each entry
a listener that hands the application handler exactly the payload. -/
theorem c5_subscription_payload_only (ipcKey : String) (h : String → RendererCb)
    (w : World) (hm : (w.toMainTab.map Prod.fst).Nodup)
    (hr : (w.toRenderTab.map Prod.fst).Nodup) :
    (∀ (k : String) (d : IpcAction), (k, d) ∈ w.toRenderTab →
      alookup (buildExpose w.toMainTab w.toRenderTab) ("r_" ++ k)
        = some (BridgeFn.onFn k))
    ∧ (∀ (f : RendererCb) (k : String) (e : Value) (w2 : World),
        applyBridgeFn (BridgeFn.onFn k) (JsArg.cb f) e w2
          = (CallRet.retUndef,
             { w2 with rendererOn := w2.rendererOn ++ [(k, fun _e p => f p)] }))
    ∧ fromMain ipcKey h (preload ipcKey w)
        = ({ preload ipcKey w with
              rendererOn := (preload ipcKey w).rendererOn
                ++ w.toRenderTab.map (fun p => (p.1, fun _e a => h p.1 a)) },
            none) := by
  refine ⟨fun k d hmem => alookup_buildExpose_r w.toMainTab w.toRenderTab hm hr k d hmem,
    fun _ _ _ _ => rfl, ?_⟩
  exact fromMainLoop_ok ipcKey h w.toRenderTab (preload ipcKey w)
    (buildExpose w.toMainTab w.toRenderTab)
    (alookup_recordSet w.globalScope ipcKey (buildExpose w.toMainTab w.toRenderTab))
    (fun p hp => alookup_buildExpose_r w.toMainTab w.toRenderTab hm hr p.1 p.2 hp)

/-- Witness for C5 at a concrete contract with one main-to-renderer action. -/
theorem c5_witness :
    fromMain "api" exCbs exV1
      = ({ exV1 with rendererOn := exV1.rendererOn
            ++ [("notify", fun _e a => exCbs "notify" a)] }, none) :=
  (c5_subscription_payload_only "api" exCbs exV0 (by decide) (by decide)).2.2

/-- C6: toRenderer returns one sender callable per main-to-renderer entry,
keyed by the unprefixed action name and targeting exactly the given window,
without touching the world; invoking a sender records exactly one window-send
transport call of the unchanged argument and changes nothing else. -/
theorem c6_toRenderer_senders (windowId : Nat) (w : World)
    (hr : (w.toRenderTab.map Prod.fst).Nodup) :
    (toRenderer windowId w).1 = w.toRenderTab.map (fun p => (p.1, (windowId, p.1)))
    ∧ ((toRenderer windowId w).1.map Prod.fst).Nodup
    ∧ (toRenderer windowId w).2 = w
    ∧ ∀ (s : SenderFn) (arg : Value) (w2 : World),
        callSender s arg w2
          = { w2 with windowSent := w2.windowSent ++ [(s.1, s.2, arg)] } := by
  have hapi := toRenderer_api_eq windowId w hr
  refine ⟨hapi, ?_, rfl, fun _ _ _ => rfl⟩
  rw [hapi, List.map_map]
  exact hr

/-- Witness for C6 at a concrete contract and window. -/
theorem c6_witness :
    (toRenderer 1 exV0).1 = [("notify", (1, "notify"))] :=
  (c6_toRenderer_senders 1 exV0 (by decide)).1

/-- C7: obtaining the caller object via toMain performs no bridge lookup and
cannot fail (it leaves the world untouched and is built from the table alone),
while invoking any of its callables when the namespace object is absent from
the global scope fails with the reference error at the point of use. -/
theorem c7_missing_bridge (ipcKey : String) (w : World) :
    (toMain ipcKey w).2 = w
    ∧ ((w.toMainTab.map Prod.fst).Nodup →
        (toMain ipcKey w).1
          = w.toMainTab.map (fun p => (p.1, (ipcKey, "m_" ++ p.1))))
    ∧ (alookup w.globalScope ipcKey = none →
        ∀ (k : String) (arg e : Value),
          callCaller (ipcKey, "m_" ++ k) arg e w
            = Except.error RTErr.bridgeMissing) := by
  refine ⟨rfl, fun hm => toMain_api_eq ipcKey w hm, fun hnone k arg e => ?_⟩
  simp [callCaller, callExposed, hnone]

/-- Witness for C7: calling before preload fails, at a concrete world. -/
theorem c7_witness :
    callCaller ("api", "m_" ++ "fetchData") (Value.int 7) Value.null exW0
      = Except.error RTErr.bridgeMissing :=
  (c7_missing_bridge "api" exW0).2.2 rfl "fetchData" (Value.int 7) Value.null

/-- C8: no surface call ever removes a registered listener: over any sequence of
surface calls each transport registry extends its previous contents; moreover a
fromRenderer call adds one ipcMain listener per renderer-to-main entry on top of
whatever is registered, and a fromMain call (with the bridge installed) adds one
ipcRenderer listener per main-to-renderer entry, never replacing earlier ones. -/
theorem c8_listeners_only_grow :
    (∀ (ops : List SurfaceOp) (w : World),
      (∃ t, (runOps ops w).mainHandle = w.mainHandle ++ t)
      ∧ (∃ t, (runOps ops w).mainOn = w.mainOn ++ t)
      ∧ (∃ t, (runOps ops w).rendererOn = w.rendererOn ++ t))
    ∧ (∀ (h : String → MainHandler) (w : World),
        (fromRenderer h w).mainHandle.length + (fromRenderer h w).mainOn.length
          = w.mainHandle.length + w.mainOn.length + w.toMainTab.length)
    ∧ (∀ (ipcKey : String) (h : String → RendererCb) (w : World),
        (∃ ex, alookup w.globalScope ipcKey = some ex
          ∧ ∀ p ∈ w.toRenderTab,
              alookup ex ("r_" ++ p.1) = some (BridgeFn.onFn p.1)) →
        (fromMain ipcKey h w).1.rendererOn.length
          = w.rendererOn.length + w.toRenderTab.length) := by
  refine ⟨fun ops w => runOps_growth ops w, ?_, ?_⟩
  · intro h w
    rw [show fromRenderer h w = w.toMainTab.foldl (fromRendererStep h) w from rfl]
    rw [fromRendererLoop_handle h w.toMainTab w, fromRendererLoop_on h w.toMainTab w]
    have hsplit := filter_split_len (fun p => p.2.type == "twoWay") w.toMainTab
    simp only [List.length_append, List.length_map]
    omega
  · rintro ipcKey h w ⟨ex, hgs, hall⟩
    have heq : fromMain ipcKey h w
        = ({ w with rendererOn := w.rendererOn
              ++ w.toRenderTab.map (fun p => (p.1, fun _e a => h p.1 a)) }, none) :=
      fromMainLoop_ok ipcKey h w.toRenderTab w ex hgs hall
    rw [heq]
    simp

/-- Witness for C8: a fromMain call at a concrete world with the bridge
installed grows the renderer listener registry by the table size. -/
theorem c8_witness :
    (fromMain "api" exCbs exV1).1.rendererOn.length
      = exV1.rendererOn.length + exV1.toRenderTab.length :=
  c8_listeners_only_grow.2.2 "api" exCbs exV1
    ⟨buildExpose exV0.toMainTab exV0.toRenderTab, by decide, by decide⟩

/-- C9: the descriptor factories take no runtime arguments and always return the
fixed literals with the stated tag and null payload placeholders, and no surface
ever reads a descriptor beyond its key and type tag: two worlds with the same
key/type skeletons and the same observable state stay observably equal under
every surface call. -/
theorem c9_descriptor_factories_and_phantoms :
    twoWayAction.type = "twoWay" ∧ twoWayAction.arg = Value.null
    ∧ twoWayAction.result = some Value.null
    ∧ oneWayAction.type = "oneWay" ∧ oneWayAction.arg = Value.null
    ∧ oneWayAction.result = none
    ∧ ∀ (op : SurfaceOp) (w w' : World),
        tabTypes w.toMainTab = tabTypes w'.toMainTab →
        tabTypes w.toRenderTab = tabTypes w'.toRenderTab →
        World.obs w = World.obs w' →
        World.obs (stepOp op w) = World.obs (stepOp op w') :=
  ⟨rfl, rfl, rfl, rfl, rfl, rfl, stepOp_obs_congr⟩

/-- Witness for C9: replacing the null arg placeholder of a declared descriptor
by another value changes nothing observable about a preload call. -/
theorem c9_witness :
    World.obs (stepOp (SurfaceOp.preloadOp "api") exW0)
      = World.obs (stepOp (SurfaceOp.preloadOp "api") exU0) :=
  c9_descriptor_factories_and_phantoms.2.2.2.2.2.2 (SurfaceOp.preloadOp "api")
    exW0 exU0 (by decide) (by decide) rfl

/-- C10: createIpcApi only closes over its inputs — it touches no process state
and performs no transport call — and no sequence of surface calls changes the
two API tables or the descriptors they contain. -/
theorem c10_no_effect_and_frame :
    (∀ (p : CreateIpcApiProps) (w : World),
      createIpcApi p w
        = ({ ipcKey := p.ipcKey, toMainTab := p.toMain.getD [],
             toRenderTab := p.toRenderer.getD [] }, w))
    ∧ ∀ (ops : List SurfaceOp) (w : World),
        (runOps ops w).toMainTab = w.toMainTab
        ∧ (runOps ops w).toRenderTab = w.toRenderTab :=
  ⟨fun _ _ => rfl, fun ops w => runOps_tables ops w⟩
